import Mathlib

/-!
Verification of the constructive navigation-mesh library.

The library's geometric core (plane/face math, BSP trees, navmesh link
generation, A-star with funnel shortening) is shallowly embedded below.
Coordinates are modelled as rationals; the f32 square root is modelled by
the exact rational square root (exact on perfect squares, which is the
only case the theorems below depend on).  The transcendental pieces of the
source (atan2 and TAU, used only to discretize bucket keys) are threaded
through as explicit function parameters.
-/

attribute [local semireducible] Rat.add Rat.sub Rat.mul Rat.inv Rat.ofScientific

namespace Constructive

/-- Modelled from the spec: the tolerance constant of util.rs, which is not
under src/; the spec fixes TOLERANCE = 1e-5. -/
def TOLERANCE : ℚ := 1 / 100000

/-- Rational model of f32::EPSILON, which is exactly 2^(-23). -/
def EPS32 : ℚ := 1 / 8388608

/-- Largest r at most the fuel with r * r at most n (structural recursion
so that concrete square roots reduce inside the kernel). -/
def natSqrtAux (n : ℕ) : ℕ → ℕ
  | 0 => 0
  | k + 1 => if (k + 1) * (k + 1) ≤ n then k + 1 else natSqrtAux n k

/-- Integer square root of a natural number: the largest r with r * r <= n. -/
def natSqrt (n : ℕ) : ℕ := natSqrtAux n n

/-- Integer square root of an integer (zero on negatives). -/
def intSqrt : ℤ → ℤ
  | Int.ofNat n => natSqrt n
  | Int.negSucc _ => 0

/-- Rational square root, modelling the f32 sqrt: the rational square root
of numerator and denominator, exact on perfect squares (the only case the
theorems below depend on). -/
def sqrtQ (q : ℚ) : ℚ := mkRat (intSqrt q.num) (natSqrt q.den)

/-- Rust's f32::clamp(lo, hi), assuming lo <= hi. -/
def clampQ (x lo hi : ℚ) : ℚ := min (max x lo) hi

/-- A 3-D vector with rational coordinates, modelling glam::Vec3. -/
structure Vec3 where
  x : ℚ
  y : ℚ
  z : ℚ
deriving DecidableEq

namespace Vec3

def add (a b : Vec3) : Vec3 := ⟨a.x + b.x, a.y + b.y, a.z + b.z⟩

def sub (a b : Vec3) : Vec3 := ⟨a.x - b.x, a.y - b.y, a.z - b.z⟩

def neg (a : Vec3) : Vec3 := ⟨-a.x, -a.y, -a.z⟩

def smul (c : ℚ) (a : Vec3) : Vec3 := ⟨c * a.x, c * a.y, c * a.z⟩

def dot (a b : Vec3) : ℚ := a.x * b.x + a.y * b.y + a.z * b.z

def cross (a b : Vec3) : Vec3 :=
  ⟨a.y * b.z - a.z * b.y, a.z * b.x - a.x * b.z, a.x * b.y - a.y * b.x⟩

/-- Vec3::normalize of glam: the vector divided by its length. -/
def normalize (a : Vec3) : Vec3 := smul (sqrtQ (dot a a))⁻¹ a

/-- Squared distance between two points, modelling Vec3::distance_squared. -/
def distSq (a b : Vec3) : ℚ := dot (sub a b) (sub a b)

/-- Distance between two points, modelling Vec3::distance (f32 sqrt). -/
def dist (a b : Vec3) : ℚ := sqrtQ (distSq a b)

/-- Vec3::Y, the world-up axis. -/
def yAxis : Vec3 := ⟨0, 1, 0⟩

instance : Add Vec3 := ⟨add⟩

instance : Sub Vec3 := ⟨sub⟩

instance : Neg Vec3 := ⟨neg⟩

instance : SMul ℚ Vec3 := ⟨smul⟩

instance : Inhabited Vec3 := ⟨⟨0, 0, 0⟩⟩

theorem add_def (a b : Vec3) : a + b = ⟨a.x + b.x, a.y + b.y, a.z + b.z⟩ := rfl

theorem sub_def (a b : Vec3) : a - b = ⟨a.x - b.x, a.y - b.y, a.z - b.z⟩ := rfl

theorem smul_def (c : ℚ) (a : Vec3) :
    c • a = ⟨c * a.x, c * a.y, c * a.z⟩ := rfl

end Vec3

/-- A triangular face, modelling brush.rs Face (three finite points).  The
finiteness assertion of Face::new is vacuous over the rationals. -/
structure Face where
  p1 : Vec3
  p2 : Vec3
  p3 : Vec3
deriving DecidableEq

namespace Face

/-- Face::normal: normalize((p1 - p3) x (p2 - p3)). -/
def normal (f : Face) : Vec3 := ((f.p1 - f.p3).cross (f.p2 - f.p3)).normalize

def points (f : Face) : List Vec3 := [f.p1, f.p2, f.p3]

/-- Modelled from the spec: Face::flip is not under src/; the spec says it
reverses the winding, matching the reversal (p3, p2, p1) that the in-src
orient closure of Plane::split_face uses. -/
def flip (f : Face) : Face := ⟨f.p3, f.p2, f.p1⟩

/-- Modelled from the spec: Face::edges is not under src/; the spec says it
yields the three directed segments in winding order. -/
def edges (f : Face) : List (Vec3 × Vec3) :=
  [(f.p1, f.p2), (f.p2, f.p3), (f.p3, f.p1)]

/-- Modelled from the spec: Face::map is not under src/; it maps every
vertex through the given function. -/
def map (g : Vec3 → Vec3) (f : Face) : Face := ⟨g f.p1, g f.p2, g f.p3⟩

/-- Signed area term of the 2-D cross product used by the barycentric test. -/
def cross2 (ax az bx bz : ℚ) : ℚ := ax * bz - az * bx

/-- Modelled from the spec: Face::contains_point is not under src/; the spec
describes a barycentric in-plane test via three signed edge cross terms on
the 2-D (XZ) projection of the face.  The point is inside unless the three
cross terms carry both a strictly negative and a strictly positive sign. -/
def contains_point (f : Face) (p : Vec3) : Bool :=
  let d1 := cross2 (f.p2.x - f.p1.x) (f.p2.z - f.p1.z) (p.x - f.p1.x) (p.z - f.p1.z)
  let d2 := cross2 (f.p3.x - f.p2.x) (f.p3.z - f.p2.z) (p.x - f.p2.x) (p.z - f.p2.z)
  let d3 := cross2 (f.p1.x - f.p3.x) (f.p1.z - f.p3.z) (p.x - f.p3.x) (p.z - f.p3.z)
  let hasNeg := d1 < 0 || d2 < 0 || d3 < 0
  let hasPos := d1 > 0 || d2 > 0 || d3 > 0
  !(hasNeg && hasPos)

instance : Inhabited Face := ⟨⟨default, default, default⟩⟩

end Face

/-- Face classification result, modelling brush.rs FaceIntersect as used by
plane.rs (the five-variant version). -/
inductive FaceIntersect where
  | Front
  | Back
  | CoplanarFront
  | CoplanarBack
  | Intersect
deriving DecidableEq

/-- A plane, modelling plane.rs Plane. -/
structure Plane where
  normal : Vec3
  distance : ℚ
deriving DecidableEq

namespace Plane

/-- Plane::from_face: the face normal and p1 . normal. -/
def from_face (f : Face) : Plane := ⟨f.normal, f.p1.dot f.normal⟩

/-- Plane::distance_to_point: point . normal - distance. -/
def distance_to_point (pl : Plane) (p : Vec3) : ℚ := p.dot pl.normal - pl.distance

/-- Plane::classify_face of plane.rs, translated clause by clause. -/
def classify_face (pl : Plane) (f : Face) : FaceIntersect :=
  let d1 := pl.distance_to_point f.p1
  let d2 := pl.distance_to_point f.p2
  let d3 := pl.distance_to_point f.p3
  if |d1| ≤ TOLERANCE ∧ |d2| ≤ TOLERANCE ∧ |d3| ≤ TOLERANCE then
    if f.normal.dot pl.normal > 0 then FaceIntersect.CoplanarFront
    else FaceIntersect.CoplanarBack
  else if d1 ≥ -TOLERANCE ∧ d2 ≥ -TOLERANCE ∧ d3 ≥ -TOLERANCE then
    FaceIntersect.Front
  else if d1 ≤ TOLERANCE ∧ d2 ≤ TOLERANCE ∧ d3 ≤ TOLERANCE then
    FaceIntersect.Back
  else FaceIntersect.Intersect

/-- Plane::invert of plane.rs: it RETURNS a new plane with both fields
negated and does not mutate the receiver. -/
def invert (pl : Plane) : Plane := ⟨-pl.normal, -pl.distance⟩

end Plane

/-- Modelled from the spec: Face::distance_to_plane is not under src/; the
spec's signed-distance convention (section 4.1) gives p . normal - distance
against the plane of the face.  The commented-out filter in
Navmesh::closest_polygon compares this value with -TOLERANCE, confirming
that it is the signed distance. -/
def Face.distance_to_plane (f : Face) (p : Vec3) : ℚ :=
  (Plane.from_face f).distance_to_point p

/-- A directed 3-D edge, modelling edge.rs Edge3D. -/
structure Edge3D where
  p1 : Vec3
  p2 : Vec3
deriving DecidableEq

namespace Edge3D

/-- Edge3D::intersect_ray_clipped, translated clause by clause: intersect
the ray with the vertical plane through the edge, then clamp the edge
parameter to the unit interval. -/
def intersect_ray_clipped (e : Edge3D) (ray_origin ray_direction : Vec3) :
    Option Vec3 :=
  let edge_dir := e.p2 - e.p1
  let normal := edge_dir.cross Vec3.yAxis
  let denom := ray_direction.dot normal
  if |denom| < EPS32 then none
  else
    let t := ((e.p1 - ray_origin).dot normal) / denom
    if t < 0 then none
    else
      let intersection := ray_origin + t • ray_direction
      let edge_coord := ((intersection - e.p1).dot edge_dir) / (edge_dir.dot edge_dir)
      some (clampQ edge_coord 0 1 • edge_dir + e.p1)

instance : Inhabited Edge3D := ⟨⟨default, default⟩⟩

end Edge3D

/-- A 1-D interval, modelling span.rs Span. -/
structure Span where
  min : ℚ
  max : ℚ
deriving DecidableEq

namespace Span

def empty : Span := ⟨0, 0⟩

def is_empty (s : Span) : Bool := s.min ≥ s.max

def intersect (s other : Span) : Span :=
  if s.is_empty || other.is_empty then empty
  else ⟨Max.max s.min other.min, Min.min s.max other.max⟩

end Span

/-- A BSP node, modelling tree.rs Node: optional child indices into the
tree's arena, the coplanar polygons, and the splitting plane. -/
structure Node where
  front : Option ℕ
  back : Option ℕ
  polygons : List Face
  plane : Plane
deriving DecidableEq

/-- A BSP tree, modelling tree.rs BspTree: a root index plus an arena of
nodes.  The slab arena is modelled as a list indexed by position. -/
structure BspTree where
  root : ℕ
  nodes : List Node
deriving DecidableEq

namespace BspTree

/-- One node's share of BspTree::invert_subtree, translated statement by
statement: every polygon is flipped, the front/back children are swapped,
and the plane is left unchanged because the source writes
node.plane.invert(); whose returned plane is discarded (Plane::invert takes
the receiver by reference and returns a new plane). -/
def invertNode (n : Node) : Node :=
  { n with
    polygons := n.polygons.map Face.flip
    plane := n.plane
    front := n.back
    back := n.front }

/-- BspTree::invert_subtree: depth-first over the children.  The recursion
of the source follows arena indices; a fuel argument bounds the depth,
and the number of nodes is always sufficient fuel for a real tree. -/
def invert_subtree : ℕ → BspTree → ℕ → BspTree
  | 0, t, _ => t
  | fuel + 1, t, i =>
    match t.nodes.get? i with
    | none => t
    | some n =>
      let n' := invertNode n
      let t' : BspTree := ⟨t.root, t.nodes.set i n'⟩
      let t2 := match n'.front with
        | some f => invert_subtree fuel t' f
        | none => t'
      match n'.back with
      | some b => invert_subtree fuel t2 b
      | none => t2

/-- BspTree::invert: invert the subtree rooted at the root. -/
def invert (t : BspTree) : BspTree := invert_subtree t.nodes.length t t.root

end BspTree

/-- Link kinds, modelling link.rs LinkKind. -/
inductive LinkKind where
  | Walk : Edge3D → LinkKind
  | StepUp : Edge3D → Edge3D → LinkKind
deriving DecidableEq

/-- A navmesh link, modelling link.rs NavmeshLink.  The Rust field names
from and to are Lean keywords, hence fromId and toId. -/
structure NavmeshLink where
  fromId : ℕ
  toId : ℕ
  kind : LinkKind
deriving DecidableEq

namespace NavmeshLink

/-- NavmeshLink::reverse: swap the endpoints and the two StepUp edges. -/
def reverse (l : NavmeshLink) : NavmeshLink :=
  { fromId := l.toId
    toId := l.fromId
    kind := match l.kind with
      | LinkKind.Walk v => LinkKind.Walk v
      | LinkKind.StepUp a b => LinkKind.StepUp b a }

/-- NavmeshLink::source_edge. -/
def source_edge (l : NavmeshLink) : Edge3D :=
  match l.kind with
  | LinkKind.Walk v => v
  | LinkKind.StepUp v _ => v

/-- NavmeshLink::destination_edge. -/
def destination_edge (l : NavmeshLink) : Edge3D :=
  match l.kind with
  | LinkKind.Walk v => v
  | LinkKind.StepUp _ v => v

instance : Inhabited NavmeshLink := ⟨⟨0, 0, LinkKind.Walk default⟩⟩

end NavmeshLink

/-- Navmesh settings, modelling navmesh/mod.rs NavmeshSettings. -/
structure NavmeshSettings where
  max_step_height : ℚ
  max_slope_cosine : ℚ
  agent_radius : ℚ
deriving DecidableEq

/-- NavmeshSettings::new, the default settings. -/
def NavmeshSettings.new : NavmeshSettings :=
  ⟨7 / 10, 707 / 1000, 1 / 5⟩

/-- Association-list map from polygon ids to link id lists, modelling the
BTreeMap polygon_links.  The map is only ever read through keyed lookup
(astar uses get; link generation uses entry().or_default().push()), so the
entry order carries no behaviour. -/
def PLinks := List (ℕ × List ℕ)

instance : DecidableEq PLinks := by
  unfold PLinks
  infer_instance

/-- BTreeMap::get for polygon_links, flattened to the empty list when the
key is absent (matching the into_iter().flatten() read in astar). -/
def plLookup : List (ℕ × List ℕ) → ℕ → List ℕ
  | [], _ => []
  | (a, vs) :: rest, k => if k = a then vs else plLookup rest k

/-- Entry-or-default push for polygon_links: append the id to the list at
the key, creating the entry when absent. -/
def plPush : List (ℕ × List ℕ) → ℕ → ℕ → List (ℕ × List ℕ)
  | [], k, v => [(k, [v])]
  | (a, vs) :: rest, k, v =>
    if k = a then (a, vs ++ [v]) :: rest else (a, vs) :: plPush rest k v

/-- A navmesh, modelling navmesh/mod.rs Navmesh.  Both slabs are dense
(nothing is ever removed from them), so they are modelled as lists indexed
by position. -/
structure Navmesh where
  polygons : List Face
  polygon_links : List (ℕ × List ℕ)
  links : List NavmeshLink
  settings : NavmeshSettings
deriving DecidableEq

namespace Navmesh

/-- Slab indexing into the link arena, as used by astar (which panics, and
hence never observes the default, on an absent id). -/
def linkAt (nm : Navmesh) (i : ℕ) : NavmeshLink := nm.links.getD i default

/-- Iterator::min_by_key of Rust: the element with the least key, the first
one in case of ties. -/
def minByKeyFirst : List ((ℕ × Face) × ℚ) → Option ((ℕ × Face) × ℚ)
  | [] => none
  | x :: rest =>
    match minByKeyFirst rest with
    | none => some x
    | some b => if b.2 < x.2 then some b else some x

/-- Navmesh::closest_polygon, translated from the iterator chain: filter
the polygons containing the point, key each by its signed plane distance,
and take the minimum by that key. -/
def closest_polygon (nm : Navmesh) (point : Vec3) : Option (ℕ × Face) :=
  let cands := (nm.polygons.enum.filter fun v => v.2.contains_point point).map
    fun v => (v, v.2.distance_to_plane point)
  (minByKeyFirst cands).map fun v => v.1

end Navmesh

/-- A 2-D point for the coplanar projection, modelling glam::Vec2. -/
structure Vec2 where
  x : ℚ
  y : ℚ
deriving DecidableEq

/-- Transcendental pieces of the f32 source that have no exact rational
form: atan2 and TAU.  They only feed the discretized bucket keys of the
edge-plane index, and every theorem below holds for every choice, so they
are threaded through as explicit parameters. -/
structure Trig where
  atan2 : ℚ → ℚ → ℚ
  tau : ℚ

/-- Rust f32::round: the nearest integer, halves away from zero. -/
def roundQ (q : ℚ) : ℤ := if q ≥ 0 then ⌊q + 1 / 2⌋ else ⌈q - 1 / 2⌉

/-- Truncation toward zero, as used by the float remainder. -/
def truncQ (q : ℚ) : ℤ := if q ≥ 0 then ⌊q⌋ else ⌈q⌉

/-- Rust % on floats: the remainder with the sign of the dividend. -/
def fmodQ (a b : ℚ) : ℚ := a - b * (truncQ (a / b) : ℚ)

/-- Rust saturating float-to-u32 cast applied to a rounded value. -/
def toU32 (z : ℤ) : ℕ := (min z (2 ^ 32 - 1)).toNat

/-- Rust saturating float-to-i32 cast applied to a rounded value. -/
def toI32 (z : ℤ) : ℤ := max (-(2 ^ 31)) (min z (2 ^ 31 - 1))

/-- A polygon edge, modelling edgelist.rs PolygonEdge. -/
structure PolygonEdge where
  p1 : Vec3
  p2 : Vec3
  polygon : ℕ
deriving DecidableEq

/-- A vertical plane through an edge, modelling edgelist.rs VerticalPlane. -/
structure VerticalPlane where
  distance : ℚ
  normal : Vec3
  angle : ℚ
deriving DecidableEq

namespace VerticalPlane

/-- VerticalPlane::new: the angle is atan2(normal.z, normal.x). -/
def new (trig : Trig) (normal : Vec3) (distance : ℚ) : VerticalPlane :=
  ⟨distance, normal, trig.atan2 normal.z normal.x⟩

/-- VerticalPlane::tangent: normal x Y. -/
def tangent (v : VerticalPlane) : Vec3 := v.normal.cross Vec3.yAxis

/-- VerticalPlane::transform_coplanar_point. -/
def transform_coplanar_point (v : VerticalPlane) (p : Vec3) : Vec2 :=
  ⟨p.dot v.tangent, p.dot Vec3.yAxis⟩

/-- VerticalPlane::coplanar_edge. -/
def coplanar_edge (v : VerticalPlane) (e : PolygonEdge) : Vec2 × Vec2 :=
  (v.transform_coplanar_point e.p1, v.transform_coplanar_point e.p2)

/-- VerticalPlane::coplanar_interval. -/
def coplanar_interval (v : VerticalPlane) (e : PolygonEdge) : Span :=
  let e1 := v.transform_coplanar_point e.p1
  let e2 := v.transform_coplanar_point e.p2
  ⟨min e1.x e2.x, max e1.x e2.x⟩

/-- VerticalPlane::canonicalize: zero the near-zero axes, then flip the
sign so that the leading nonzero coordinate is positive. -/
def canonicalize (trig : Trig) (v : VerticalPlane) : VerticalPlane :=
  let x := if |v.normal.x| < TOLERANCE then 0 else v.normal.x
  let y := if |v.normal.y| < TOLERANCE then 0 else v.normal.y
  let z := if |v.normal.z| < TOLERANCE then 0 else v.normal.z
  let d := v.distance
  let zero_x := x = 0
  let zero_y := y = 0
  let flip := (x < 0) ∨ (zero_x ∧ y < 0) ∨ (zero_x ∧ zero_y ∧ z < 0)
  if flip then new trig (-(⟨x, y, z⟩ : Vec3)) (-d)
  else new trig (⟨x, y, z⟩ : Vec3) d

/-- VerticalPlane::coplanar_to_world. -/
def coplanar_to_world (v : VerticalPlane) (p : Vec2) : Vec3 :=
  p.x • v.tangent + v.distance • v.normal + p.y • Vec3.yAxis

end VerticalPlane

/-- PolygonEdge::as_vertical_plane: the normalized cross of the edge
direction with Y, and its distance along that normal. -/
def PolygonEdge.as_vertical_plane (trig : Trig) (e : PolygonEdge) : VerticalPlane :=
  let bi := e.p2 - e.p1
  let normal := (bi.cross Vec3.yAxis).normalize
  VerticalPlane.new trig normal (normal.dot e.p1)

/-- A bucket of the edge-plane index, modelling navmesh/mod.rs
EdgeLinkPlane: the canonical plane plus the front and back edge lists. -/
structure EdgeLinkPlane where
  plane : VerticalPlane
  front : List PolygonEdge
  back : List PolygonEdge
deriving DecidableEq

/-- Bucket key order (BTreeMap iterates keys in ascending order). -/
def keyLt (a b : ℕ × ℤ) : Bool := a.1 < b.1 || (a.1 = b.1 && a.2 < b.2)

/-- BTreeMap entry().or_insert_with() followed by a push into one of the
two edge lists; the map is kept sorted by key as a BTreeMap is. -/
def bmPush (k : ℕ × ℤ) (pl : VerticalPlane) (add : EdgeLinkPlane → EdgeLinkPlane) :
    List ((ℕ × ℤ) × EdgeLinkPlane) → List ((ℕ × ℤ) × EdgeLinkPlane)
  | [] => [(k, add ⟨pl, [], []⟩)]
  | (a, e) :: rest =>
    if k = a then (a, add e) :: rest
    else if keyLt k a then (k, add ⟨pl, [], []⟩) :: (a, e) :: rest
    else (a, e) :: bmPush k pl add rest

/-- The edge-assignment loop of Navmesh::generate_links: every directed
edge of every polygon is keyed by its canonicalized vertical plane's
discretized angle and distance and pushed onto the bucket's front list
when its own normal agrees with the canonical normal, else the back. -/
def assignEdges (trig : Trig) (polygons : List Face) :
    List ((ℕ × ℤ) × EdgeLinkPlane) :=
  polygons.enum.foldl
    (fun m idface =>
      idface.2.edges.foldl
        (fun m pp =>
          let edge : PolygonEdge := ⟨pp.1, pp.2, idface.1⟩
          let plane := edge.as_vertical_plane trig
          let canonical_plane := plane.canonicalize trig
          let disc_angle := toU32 (roundQ (fmodQ (canonical_plane.angle + trig.tau) trig.tau * 1024))
          let distance := toI32 (roundQ (canonical_plane.distance * 256))
          if plane.normal.dot canonical_plane.normal > 0 then
            bmPush (disc_angle, distance) canonical_plane
              (fun e => { e with front := e.front ++ [edge] }) m
          else
            bmPush (disc_angle, distance) canonical_plane
              (fun e => { e with back := e.back ++ [edge] }) m)
        m)
    []

/-- The per-pair body of the linking loop of Navmesh::generate_links,
returning the links it creates in creation order. -/
def pairLinks (settings : NavmeshSettings) (plane : VerticalPlane)
    (back_edge front_edge : PolygonEdge) : List NavmeshLink :=
  let back_interval := plane.coplanar_interval back_edge
  let front_interval := plane.coplanar_interval front_edge
  let overlap := back_interval.intersect front_interval
  if overlap.is_empty then []
  else
    let s := plane.coplanar_edge back_edge
    let d := plane.coplanar_edge front_edge
    let m_s := (s.2.y - s.1.y) / (s.2.x - s.1.x)
    let m_d := (d.2.y - d.1.y) / (d.2.x - d.1.x)
    let c_s := s.1.y - m_s * s.1.x
    let c_d := d.1.y - m_d * d.1.x
    let delta_m := m_d - m_s
    let delta_c := c_d - c_s
    if |delta_m| > TOLERANCE then
      let walk_x := -delta_c / delta_m
      let step_up_x := (settings.max_step_height - delta_c) / delta_m
      let step_down_x := (-settings.max_step_height - delta_c) / delta_m
      let step_down := (Span.mk (min walk_x step_down_x) (max walk_x step_down_x)).intersect overlap
      let step_up := (Span.mk (min walk_x step_up_x) (max walk_x step_up_x)).intersect overlap
      (if !step_down.is_empty then
        let s_low : Vec2 := ⟨step_down.min, m_s * step_down.min + c_s⟩
        let s_high : Vec2 := ⟨step_down.max, m_s * step_down.max + c_s⟩
        let d_low : Vec2 := ⟨step_down.min, m_d * step_down.min + c_d⟩
        let d_high : Vec2 := ⟨step_down.max, m_d * step_down.max + c_d⟩
        [NavmeshLink.mk front_edge.polygon back_edge.polygon
          (LinkKind.StepUp
            ⟨plane.coplanar_to_world s_low, plane.coplanar_to_world s_high⟩
            ⟨plane.coplanar_to_world d_low, plane.coplanar_to_world d_high⟩)]
      else []) ++
      (if !step_up.is_empty then
        let s_low : Vec2 := ⟨step_up.min, m_s * step_up.min + c_s⟩
        let s_high : Vec2 := ⟨step_up.max, m_s * step_up.max + c_s⟩
        let d_low : Vec2 := ⟨step_up.min, m_d * step_up.min + c_d⟩
        let d_high : Vec2 := ⟨step_up.max, m_d * step_up.max + c_d⟩
        [NavmeshLink.mk front_edge.polygon back_edge.polygon
          (LinkKind.StepUp
            ⟨plane.coplanar_to_world d_low, plane.coplanar_to_world d_high⟩
            ⟨plane.coplanar_to_world s_low, plane.coplanar_to_world s_high⟩)]
      else [])
    else if |delta_c| < settings.max_step_height then
      let s1 : Vec2 := ⟨overlap.min, m_s * overlap.min + c_s⟩
      let s2 : Vec2 := ⟨overlap.max, m_s * overlap.max + c_s⟩
      let d1 : Vec2 := ⟨overlap.min, m_d * overlap.min + c_d⟩
      let d2 : Vec2 := ⟨overlap.max, m_d * overlap.max + c_d⟩
      if delta_c > TOLERANCE then
        [NavmeshLink.mk back_edge.polygon front_edge.polygon
          (LinkKind.StepUp
            ⟨plane.coplanar_to_world s1, plane.coplanar_to_world s2⟩
            ⟨plane.coplanar_to_world d1, plane.coplanar_to_world d2⟩)]
      else if delta_c < -TOLERANCE then
        [NavmeshLink.mk front_edge.polygon back_edge.polygon
          (LinkKind.StepUp
            ⟨plane.coplanar_to_world d1, plane.coplanar_to_world d2⟩
            ⟨plane.coplanar_to_world s1, plane.coplanar_to_world s2⟩)]
      else
        [NavmeshLink.mk front_edge.polygon back_edge.polygon
          (LinkKind.Walk ⟨plane.coplanar_to_world s1, plane.coplanar_to_world s2⟩)]
    else []

/-- The link and polygon_links arenas built by Navmesh::generate_links
(after the clear calls they both start empty). -/
structure LinkState where
  links : List NavmeshLink
  pl : List (ℕ × List ℕ)
deriving DecidableEq

/-- The create_link closure of Navmesh::generate_links: insert the link
(slab ids are consecutive from zero after clear), index it under its from
polygon, then insert the reverse and index it under its to polygon. -/
def createLink (st : LinkState) (l : NavmeshLink) : LinkState :=
  let index := st.links.length
  let links1 := st.links ++ [l]
  let pl1 := plPush st.pl l.fromId index
  let index2 := links1.length
  ⟨links1 ++ [l.reverse], plPush pl1 l.toId index2⟩

/-- All links created by the linking loop, in creation order: buckets in
key order, back edges then front edges in insertion order. -/
def linkCandidates (trig : Trig) (settings : NavmeshSettings)
    (polygons : List Face) : List NavmeshLink :=
  ((assignEdges trig polygons).map Prod.snd).flatMap fun elp =>
    elp.back.flatMap fun back_edge =>
      elp.front.flatMap fun front_edge =>
        pairLinks settings elp.plane back_edge front_edge

/-- The final link state of one generate_links run: every created link is
folded through create_link starting from the cleared arenas. -/
def linkStateFor (trig : Trig) (settings : NavmeshSettings)
    (polygons : List Face) : LinkState :=
  (linkCandidates trig settings polygons).foldl createLink ⟨[], []⟩

/-- Navmesh::generate_links: clear both arenas, bucket every polygon edge
by canonical vertical plane, and create a link plus its reverse for every
matching back/front pair. -/
def Navmesh.generate_links (trig : Trig) (nm : Navmesh) : Navmesh :=
  { nm with
    links := (linkStateFor trig nm.settings nm.polygons).links
    polygon_links := (linkStateFor trig nm.settings nm.polygons).pl }

/-- A path waypoint, modelling astar.rs Waypoint. -/
structure Waypoint where
  target_polygon : ℕ
  edge : Option ℕ
  point : Vec3
deriving DecidableEq

instance : Inhabited Waypoint := ⟨⟨0, none, default⟩⟩

/-- A search backtrace, modelling astar.rs Backtrace. -/
structure Backtrace where
  node : ℕ
  point : Vec3
  portal : Option ℕ
  prev : Option ℕ
  start_cost : ℚ
  total_cost : ℚ
deriving DecidableEq

namespace Backtrace

/-- Backtrace::start. -/
def start (node : ℕ) (point : Vec3) (heuristic : ℚ) : Backtrace :=
  ⟨node, point, none, none, 0, heuristic⟩

/-- Backtrace::new: one step through a link, accumulating the distance
from the previous crossing point. -/
def new (edge_index : ℕ) (edge : NavmeshLink) (point : Vec3) (prev : Backtrace)
    (heuristic : ℚ) : Backtrace :=
  let start_cost := prev.start_cost + Vec3.dist point prev.point
  ⟨edge.toId, point, some edge_index, some prev.node, start_cost, start_cost + heuristic⟩

end Backtrace

/-- BinaryHeap::pop through the reversed Ord of Backtrace: the element
with the least total_cost leaves first.  Rust leaves the order of equal
elements unspecified; this model takes the earliest pushed one (no theorem
below depends on a tie). -/
def popMin : List Backtrace → Option (Backtrace × List Backtrace)
  | [] => none
  | x :: rest =>
    match popMin rest with
    | none => some (x, [])
    | some (m, others) =>
      if m.total_cost < x.total_cost then some (m, x :: others) else some (x, rest)

/-- BTreeMap lookup for the backtrace map. -/
def btLookup : List (ℕ × Backtrace) → ℕ → Option Backtrace
  | [], _ => none
  | (a, v) :: rest, k => if k = a then some v else btLookup rest k

/-- BTreeMap insert (replacing an existing entry) for the backtrace map. -/
def btInsert : List (ℕ × Backtrace) → ℕ → Backtrace → List (ℕ × Backtrace)
  | [], k, b => [(k, b)]
  | (a, v) :: rest, k, b =>
    if k = a then (k, b) :: rest else (a, v) :: btInsert rest k b

/-- The portal expansion of one popped node in astar: for every outgoing
link id of the current node, skip self links and closed targets, compute
the crossing point (clipped ray intersection with the destination edge,
falling back to the edge midpoint), and record the child backtrace when it
is new or strictly better.  Returns the updated backtrace map and the
backtraces pushed onto the open heap.  The three heuristic distances to
the edge endpoints and midpoint that the source computes are dead code and
have no effect. -/
def expand (nm : Navmesh) (h : Vec3 → Vec3 → ℚ) (endPt : Vec3)
    (current : Backtrace) (closed : List ℕ) (btm : List (ℕ × Backtrace)) :
    List (ℕ × Backtrace) × List Backtrace :=
  (plLookup nm.polygon_links current.node).foldl
    (fun st portal =>
      let link := nm.linkAt portal
      if link.toId = current.node ∨ link.toId ∈ closed then st
      else
        let p1 := link.destination_edge.p1
        let p2 := link.destination_edge.p2
        let midpoint := (1 / 2 : ℚ) • (p1 + p2)
        let p := (link.destination_edge.intersect_ray_clipped current.point
          (endPt - current.point)).getD midpoint
        let backtrace := Backtrace.new portal link p current (h p endPt)
        match btLookup st.1 backtrace.node with
        | some val =>
          if val.total_cost > backtrace.total_cost then
            (btInsert st.1 backtrace.node backtrace, st.2 ++ [backtrace])
          else st
        | none => (btInsert st.1 backtrace.node backtrace, st.2 ++ [backtrace]))
    (btm, [])

/-- The backward walk of astar.rs contruct_backtrace (source spelling kept):
follow prev links from the end node, emitting a waypoint per step unless it
repeats the previous point within TOLERANCE, then reverse.  The fuel bounds
the prev chain; one entry per map key always suffices because the walk
visits each stored node at most once in a map built by the search. -/
def contructGo (btm : List (ℕ × Backtrace)) :
    ℕ → ℕ → List Waypoint → Vec3 → List Waypoint
  | 0, _, path, _ => path.reverse
  | fuel + 1, current, path, prev =>
    match btLookup btm current with
    | none => path.reverse
    | some node =>
      let path' :=
        if path.length < 2 ∨ Vec3.distSq prev node.point > TOLERANCE then
          path ++ [⟨node.node, node.portal, node.point⟩]
        else path
      match node.prev with
      | some p => contructGo btm fuel p path' node.point
      | none => path'.reverse

/-- Top of astar.rs contruct_backtrace: the goal waypoint first, then the
backward walk. -/
def contruct_backtrace (endPt : Vec3) (current : ℕ)
    (btm : List (ℕ × Backtrace)) : List Waypoint :=
  contructGo btm (btm.length + 1) current [⟨current, none, endPt⟩] endPt

/-- One index step of a shortening pass: for the triple starting at i,
recompute the middle waypoint as the clipped intersection of its portal's
destination edge with the ray from its predecessor to its successor, and
replace it when it moves by more than TOLERANCE (squared).  Indices with
fewer than three remaining waypoints change nothing, exactly as the break
in the source does. -/
def shortenIdx (nm : Navmesh) (path : List Waypoint) (i : ℕ) :
    List Waypoint × Bool :=
  match path.get? i, path.get? (i + 1), path.get? (i + 2) with
  | some a, some b, some c =>
    match b.edge with
    | none => (path, false)
    | some eid =>
      let portal := nm.linkAt eid
      let edge := portal.destination_edge
      match edge.intersect_ray_clipped a.point (c.point - a.point) with
      | none => (path, false)
      | some p =>
        if Vec3.distSq b.point p > TOLERANCE then
          (path.set (i + 1) { b with point := p }, true)
        else (path, false)
  | _, _, _ => (path, false)

/-- One full pass of shorten over all indices, counting replacements. -/
def shortenPass (nm : Navmesh) (path : List Waypoint) : List Waypoint × ℕ :=
  (List.range path.length).foldl
    (fun st i =>
      let next := shortenIdx nm st.1 i
      (next.1, st.2 + if next.2 then 1 else 0))
    (path, 0)

/-- The bounded pass loop of astar.rs shorten: at most 100 passes, stopping
after the first pass that replaces nothing. -/
def shortenLoop (nm : Navmesh) : ℕ → List Waypoint → List Waypoint
  | 0, path => path
  | n + 1, path =>
    let next := shortenPass nm path
    if next.2 = 0 then next.1 else shortenLoop nm n next.1

/-- astar.rs shorten. -/
def shorten (nm : Navmesh) (path : List Waypoint) : List Waypoint :=
  shortenLoop nm 100 path

/-- An upper bound on the number of heap pops an astar search can perform:
each expansion pushes at most the portal ids of one node and each node is
expanded at most once, so the total pushes never exceed the total number
of stored portal ids plus the initial push. -/
def fuelBound (nm : Navmesh) : ℕ :=
  (nm.polygon_links.map fun kv => kv.2.length).sum + 2

/-- The expansion loop of astar.rs: pop the least-cost backtrace, skip it
when closed, stop and reconstruct when it is the end node, else expand its
portals, extend the heap, and close it. -/
def astarLoop (nm : Navmesh) (h : Vec3 → Vec3 → ℚ) (endPt : Vec3)
    (end_node : ℕ) :
    ℕ → List Backtrace → List (ℕ × Backtrace) → List ℕ → Option (List Waypoint)
  | 0, _, _, _ => none
  | fuel + 1, heap, btm, closed =>
    match popMin heap with
    | none => none
    | some (current, rest) =>
      if current.node ∈ closed then astarLoop nm h endPt end_node fuel rest btm closed
      else if current.node = end_node then
        some (contruct_backtrace endPt current.node btm)
      else
        let next := expand nm h endPt current closed btm
        astarLoop nm h endPt end_node fuel (rest ++ next.2) next.1
          (closed ++ [current.node])

/-- astar.rs astar up to the final shortening: resolve both endpoints
through closest_polygon (returning none when either misses), seed the open
heap and backtrace map with the start node, and run the expansion loop.
The returned path is the raw reconstructed one. -/
def astarCore (nm : Navmesh) (start endPt : Vec3) (h : Vec3 → Vec3 → ℚ) :
    Option (List Waypoint) :=
  match nm.closest_polygon start, nm.closest_polygon endPt with
  | some sn, some en =>
    let start_bt := Backtrace.start sn.1 start (h start endPt)
    astarLoop nm h endPt en.1 (fuelBound nm) [start_bt]
      (btInsert [] sn.1 start_bt) []
  | _, _ => none

/-- astar.rs astar: the raw path, shortened in place before returning. -/
def astar (nm : Navmesh) (start endPt : Vec3) (h : Vec3 → Vec3 → ℚ) :
    Option (List Waypoint) :=
  (astarCore nm start endPt h).map (shorten nm)

/-- A brush, modelling brush.rs Brush: an ordered list of faces. -/
structure Brush where
  faces : List Face
deriving DecidableEq

/-- Brush::uv_sphere of brush.rs, translated with the source's constants
radius = 1, slices = 8, stacks = 4.  The trigonometric functions and pi of
the f32 source have no exact rational form and are abstracted as
parameters; the face count and loop structure do not depend on them. -/
def Brush.uv_sphere (cosQ sinQ : ℚ → ℚ) (piQ : ℚ) : Brush :=
  ⟨(List.range 8).flatMap fun i =>
    (List.range 4).flatMap fun j =>
      let radius : ℚ := 1
      let theta1 := (i : ℚ) * piQ * 2 / 8
      let theta2 := ((i : ℚ) + 1) * piQ * 2 / 8
      let phi1 := (j : ℚ) * piQ / 4
      let phi2 := ((j : ℚ) + 1) * piQ / 4
      let p1 : Vec3 :=
        ⟨radius * cosQ theta1 * sinQ phi1, radius * cosQ phi1,
          radius * sinQ theta1 * sinQ phi1⟩
      let p2 : Vec3 :=
        ⟨radius * cosQ theta2 * sinQ phi1, radius * cosQ phi1,
          radius * sinQ theta2 * sinQ phi1⟩
      let p3 : Vec3 :=
        ⟨radius * cosQ theta2 * sinQ phi2, radius * cosQ phi2,
          radius * sinQ theta2 * sinQ phi2⟩
      let p4 : Vec3 :=
        ⟨radius * cosQ theta1 * sinQ phi2, radius * cosQ phi2,
          radius * sinQ theta1 * sinQ phi2⟩
      [⟨p1, p2, p3⟩, ⟨p3, p4, p1⟩]⟩

/-- True Euclidean distance between two rational points, used only to
state the spec's polyline-length metric (the code never computes it). -/
noncomputable def distR (a b : Vec3) : ℝ := Real.sqrt ((Vec3.distSq a b : ℚ) : ℝ)

/-- Total polyline length of a waypoint path: the sum of the Euclidean
distances between consecutive waypoint points. -/
noncomputable def polylineLength : List Waypoint → ℝ
  | a :: b :: rest => distR a.point b.point + polylineLength (b :: rest)
  | _ => 0

namespace Vec3

theorem add_comm_v (a b : Vec3) : a + b = b + a := by
  cases a; cases b
  simp only [add_def, Vec3.mk.injEq]
  refine ⟨by ring, by ring, by ring⟩

end Vec3

/-- Bounds of the Rust clamp onto the unit interval. -/
theorem clampQ_unit_bounds (x : ℚ) : 0 ≤ clampQ x 0 1 ∧ clampQ x 0 1 ≤ 1 := by
  unfold clampQ
  constructor
  · exact le_min (le_max_right x 0) (by norm_num)
  · exact min_le_right _ _

/-- Every point returned by Edge3D::intersect_ray_clipped is of the form
p1 + s (p2 - p1) with s the clamped edge coordinate. -/
theorem intersect_ray_clipped_on_segment (e : Edge3D) (o d p : Vec3)
    (h : e.intersect_ray_clipped o d = some p) :
    ∃ s : ℚ, 0 ≤ s ∧ s ≤ 1 ∧ p = e.p1 + s • (e.p2 - e.p1) := by
  unfold Edge3D.intersect_ray_clipped at h
  simp only at h
  split_ifs at h with h1 h2
  rw [Option.some_inj] at h
  obtain ⟨c, hc⟩ : ∃ c, clampQ c 0 1 • (e.p2 - e.p1) + e.p1 = p := ⟨_, h⟩
  exact ⟨clampQ c 0 1, (clampQ_unit_bounds c).1, (clampQ_unit_bounds c).2,
    by rw [← hc, Vec3.add_comm_v]⟩

/-- C6: whenever Edge3D::intersect_ray_clipped returns Some(p), the point
p lies on the closed segment from p1 to p2: there is an s in the unit
interval with p = p1 + s (p2 - p1).  Confirmed: the returned edge
coordinate is clamped to the unit interval before the point is built. -/
theorem C6_intersect_ray_clipped_within_segment (e : Edge3D) (o d p : Vec3)
    (h : e.intersect_ray_clipped o d = some p) :
    ∃ s : ℚ, 0 ≤ s ∧ s ≤ 1 ∧ p = e.p1 + s • (e.p2 - e.p1) :=
  intersect_ray_clipped_on_segment e o d p h

/-- Witness for C6: a concrete edge and ray for which the intersection
returns Some, with the segment property instantiated there. -/
theorem C6_witness :
    (Edge3D.mk ⟨1, 0, -1⟩ ⟨1, 0, 1⟩).intersect_ray_clipped ⟨0, 0, 0⟩ ⟨4, 0, 0⟩ =
      some ⟨1, 0, 0⟩ ∧
    ∃ s : ℚ, 0 ≤ s ∧ s ≤ 1 ∧
      (⟨1, 0, 0⟩ : Vec3) =
        (⟨1, 0, -1⟩ : Vec3) + s • ((⟨1, 0, 1⟩ : Vec3) - (⟨1, 0, -1⟩ : Vec3)) :=
  ⟨by decide,
    C6_intersect_ray_clipped_within_segment (Edge3D.mk ⟨1, 0, -1⟩ ⟨1, 0, 1⟩)
      ⟨0, 0, 0⟩ ⟨4, 0, 0⟩ ⟨1, 0, 0⟩ (by decide)⟩

/-- C4: Plane::classify_face follows the spec's decision chain exactly,
with d1, d2, d3 the signed distances of the face's vertices and
T = TOLERANCE: CoplanarFront when all three magnitudes are within T and
the face normal agrees with the plane normal, CoplanarBack when within T
otherwise, else Front when all are at least -T, else Back when all are at
most T, else Intersect.  Confirmed. -/
theorem C4_classify_face_cases (pl : Plane) (f : Face) :
    (pl.classify_face f = FaceIntersect.CoplanarFront ↔
      (|pl.distance_to_point f.p1| ≤ TOLERANCE ∧
        |pl.distance_to_point f.p2| ≤ TOLERANCE ∧
        |pl.distance_to_point f.p3| ≤ TOLERANCE) ∧
      f.normal.dot pl.normal > 0) ∧
    (pl.classify_face f = FaceIntersect.CoplanarBack ↔
      (|pl.distance_to_point f.p1| ≤ TOLERANCE ∧
        |pl.distance_to_point f.p2| ≤ TOLERANCE ∧
        |pl.distance_to_point f.p3| ≤ TOLERANCE) ∧
      ¬f.normal.dot pl.normal > 0) ∧
    (pl.classify_face f = FaceIntersect.Front ↔
      ¬(|pl.distance_to_point f.p1| ≤ TOLERANCE ∧
        |pl.distance_to_point f.p2| ≤ TOLERANCE ∧
        |pl.distance_to_point f.p3| ≤ TOLERANCE) ∧
      (pl.distance_to_point f.p1 ≥ -TOLERANCE ∧
        pl.distance_to_point f.p2 ≥ -TOLERANCE ∧
        pl.distance_to_point f.p3 ≥ -TOLERANCE)) ∧
    (pl.classify_face f = FaceIntersect.Back ↔
      ¬(|pl.distance_to_point f.p1| ≤ TOLERANCE ∧
        |pl.distance_to_point f.p2| ≤ TOLERANCE ∧
        |pl.distance_to_point f.p3| ≤ TOLERANCE) ∧
      ¬(pl.distance_to_point f.p1 ≥ -TOLERANCE ∧
        pl.distance_to_point f.p2 ≥ -TOLERANCE ∧
        pl.distance_to_point f.p3 ≥ -TOLERANCE) ∧
      (pl.distance_to_point f.p1 ≤ TOLERANCE ∧
        pl.distance_to_point f.p2 ≤ TOLERANCE ∧
        pl.distance_to_point f.p3 ≤ TOLERANCE)) ∧
    (pl.classify_face f = FaceIntersect.Intersect ↔
      ¬(|pl.distance_to_point f.p1| ≤ TOLERANCE ∧
        |pl.distance_to_point f.p2| ≤ TOLERANCE ∧
        |pl.distance_to_point f.p3| ≤ TOLERANCE) ∧
      ¬(pl.distance_to_point f.p1 ≥ -TOLERANCE ∧
        pl.distance_to_point f.p2 ≥ -TOLERANCE ∧
        pl.distance_to_point f.p3 ≥ -TOLERANCE) ∧
      ¬(pl.distance_to_point f.p1 ≤ TOLERANCE ∧
        pl.distance_to_point f.p2 ≤ TOLERANCE ∧
        pl.distance_to_point f.p3 ≤ TOLERANCE)) := by
  unfold Plane.classify_face
  simp only
  split_ifs with h1 h2 h3 h4 <;> simp_all

/-- Example faces for the inversion bug: a horizontal triangle at height
one and a second triangle for the child node. -/
def invFace0 : Face := ⟨⟨0, 1, 0⟩, ⟨0, 1, 1⟩, ⟨1, 1, 0⟩⟩

def invFace1 : Face := ⟨⟨2, 0, 0⟩, ⟨2, 0, 1⟩, ⟨2, 1, 0⟩⟩

/-- A two-node BSP tree: the root holds invFace0 on the plane with normal
(0,1,0) and distance 1 and has node 1 as its front child. -/
def invTree : BspTree :=
  ⟨0,
    [⟨some 1, none, [invFace0], ⟨⟨0, 1, 0⟩, 1⟩⟩,
      ⟨none, none, [invFace1], ⟨⟨1, 0, 0⟩, 2⟩⟩]⟩

/-- C1: evaluation of BspTree::invert at the failing input.  The source
statement node.plane.invert(); at tree.rs:112 discards the plane returned
by Plane::invert (which takes its receiver by reference), so inversion
flips every polygon and swaps the children of every node but leaves every
node's plane unchanged, while the claim requires the stored plane to be
negated.  The last conjunct shows the unchanged plane differs from the
inverted one Plane::invert would have produced. -/
theorem C1_invert_leaves_planes_unchanged :
    (BspTree.invert invTree).nodes.map Node.plane =
      [⟨⟨0, 1, 0⟩, 1⟩, ⟨⟨1, 0, 0⟩, 2⟩] ∧
    (BspTree.invert invTree).nodes.map Node.polygons =
      [[invFace0.flip], [invFace1.flip]] ∧
    (BspTree.invert invTree).nodes.map (fun n => (n.front, n.back)) =
      [(none, some 1), (none, none)] ∧
    Plane.invert ⟨⟨0, 1, 0⟩, 1⟩ = ⟨⟨0, -1, 0⟩, -1⟩ ∧
    (⟨⟨0, 1, 0⟩, 1⟩ : Plane) ≠ ⟨⟨0, -1, 0⟩, -1⟩ := by
  decide

/-- C5: astar returns none (and, being a total function, cannot panic)
whenever closest_polygon fails to resolve the start or the end point; the
expansion loop is never entered.  Confirmed. -/
theorem C5_astar_none_when_endpoint_misses (nm : Navmesh) (s e : Vec3)
    (h : Vec3 → Vec3 → ℚ)
    (hmiss : nm.closest_polygon s = none ∨ nm.closest_polygon e = none) :
    astar nm s e h = none := by
  unfold astar astarCore
  rcases hmiss with hm | hm
  · rw [hm]
    rfl
  · rw [hm]
    cases nm.closest_polygon s <;> rfl

/-- The empty navmesh: no polygons, no links. -/
def nmEmpty : Navmesh := ⟨[], [], [], NavmeshSettings.new⟩

/-- Witness for C5: on the empty navmesh the start point resolves to none
and astar returns none. -/
theorem C5_witness :
    (nmEmpty.closest_polygon ⟨0, 0, 0⟩ = none ∨
      nmEmpty.closest_polygon ⟨1, 1, 1⟩ = none) ∧
    astar nmEmpty ⟨0, 0, 0⟩ ⟨1, 1, 1⟩ (fun _ _ => 0) = none :=
  ⟨Or.inl (by decide),
    C5_astar_none_when_endpoint_misses nmEmpty ⟨0, 0, 0⟩ ⟨1, 1, 1⟩
      (fun _ _ => 0) (Or.inl (by decide))⟩

/-- C8 counterexample: Brush::uv_sphere generates 2 * 8 * 4 = 64 faces,
not the 2 * 16 * 12 = 384 the claim states; the source fixes slices = 8
and stacks = 4.  The face count does not depend on the trigonometric
functions, instantiated here with the zero stubs. -/
theorem C8_counterexample :
    (Brush.uv_sphere (fun _ => 0) (fun _ => 0) 0).faces.length = 64 ∧
    (Brush.uv_sphere (fun _ => 0) (fun _ => 0) 0).faces.length ≠ 384 := by
  constructor
  · rfl
  · intro hc
    rw [show (Brush.uv_sphere (fun _ => 0) (fun _ => 0) 0).faces.length = 64
      from rfl] at hc
    exact absurd hc (by decide)

/-- C8 amended: Brush::uv_sphere generates its triangle set from 8 slices
and 4 stacks, hence 2 * 8 * 4 = 64 faces, for every choice of the
trigonometric functions. -/
theorem C8_uv_sphere_has_64_faces (cosQ sinQ : ℚ → ℚ) (piQ : ℚ) :
    (Brush.uv_sphere cosQ sinQ piQ).faces.length = 64 := rfl

namespace Navmesh

theorem minByKeyFirst_eq_none_iff (l : List ((ℕ × Face) × ℚ)) :
    minByKeyFirst l = none ↔ l = [] := by
  cases l with
  | nil => simp [minByKeyFirst]
  | cons x rest =>
    simp only [minByKeyFirst]
    cases h : minByKeyFirst rest <;> simp [h]
    split <;> simp

theorem minByKeyFirst_mem (l : List ((ℕ × Face) × ℚ)) (x : (ℕ × Face) × ℚ)
    (hx : minByKeyFirst l = some x) : x ∈ l := by
  induction l generalizing x with
  | nil => simp [minByKeyFirst] at hx
  | cons a rest ih =>
    simp only [minByKeyFirst] at hx
    cases h : minByKeyFirst rest with
    | none =>
      rw [h] at hx
      simp only [Option.some_inj] at hx
      exact hx ▸ List.mem_cons_self a rest
    | some b =>
      rw [h] at hx
      simp only at hx
      split at hx
      · simp only [Option.some_inj] at hx
        exact hx ▸ List.mem_cons_of_mem a (ih b h)
      · simp only [Option.some_inj] at hx
        exact hx ▸ List.mem_cons_self a rest

theorem minByKeyFirst_min (l : List ((ℕ × Face) × ℚ)) (x : (ℕ × Face) × ℚ)
    (hx : minByKeyFirst l = some x) : ∀ y ∈ l, x.2 ≤ y.2 := by
  induction l generalizing x with
  | nil => simp [minByKeyFirst] at hx
  | cons a rest ih =>
    simp only [minByKeyFirst] at hx
    cases h : minByKeyFirst rest with
    | none =>
      rw [h] at hx
      simp only [Option.some_inj] at hx
      have hrest : rest = [] := (minByKeyFirst_eq_none_iff rest).1 h
      subst hrest
      intro y hy
      simp only [List.mem_singleton] at hy
      rw [← hx, hy]
    | some b =>
      rw [h] at hx
      simp only at hx
      split at hx
      · rename_i hlt
        simp only [Option.some_inj] at hx
        intro y hy
        rcases List.mem_cons.1 hy with hy | hy
        · rw [← hx, hy]
          exact le_of_lt hlt
        · exact hx ▸ ih b h y hy
      · rename_i hnlt
        simp only [Option.some_inj] at hx
        intro y hy
        rcases List.mem_cons.1 hy with hy | hy
        · rw [← hx, hy]
        · exact hx ▸ le_trans (not_lt.1 hnlt) (ih b h y hy)

end Navmesh

/-- A triangle at height 3/5 whose XZ projection holds the query point. -/
def faceHigh : Face := ⟨⟨0, 3 / 5, 0⟩, ⟨0, 3 / 5, 1⟩, ⟨1, 3 / 5, 0⟩⟩

/-- The same triangle at height 0. -/
def faceLow : Face := ⟨⟨0, 0, 0⟩, ⟨0, 0, 1⟩, ⟨1, 0, 0⟩⟩

/-- A navmesh holding both triangles (links play no role here). -/
def nmTwo : Navmesh := ⟨[faceHigh, faceLow], [], [], NavmeshSettings.new⟩

/-- C2 counterexample: at the point (1/4, 1/10, 1/4) both polygons contain
the point; the signed plane distances are -1/2 (faceHigh) and 1/10
(faceLow).  closest_polygon returns faceHigh, whose absolute distance 1/2
is strictly larger than faceLow's 1/10, so the returned polygon is not the
one with the smallest absolute plane distance: min_by_key orders by the
signed value. -/
theorem C2_counterexample :
    nmTwo.closest_polygon ⟨1 / 4, 1 / 10, 1 / 4⟩ = some (0, faceHigh) ∧
    faceLow.contains_point ⟨1 / 4, 1 / 10, 1 / 4⟩ = true ∧
    |faceLow.distance_to_plane ⟨1 / 4, 1 / 10, 1 / 4⟩| <
      |faceHigh.distance_to_plane ⟨1 / 4, 1 / 10, 1 / 4⟩| := by
  refine ⟨by decide, by decide, ?_⟩
  have h1 : faceLow.distance_to_plane ⟨1 / 4, 1 / 10, 1 / 4⟩ = 1 / 10 := by decide
  have h2 : faceHigh.distance_to_plane ⟨1 / 4, 1 / 10, 1 / 4⟩ = -(1 / 2) := by decide
  rw [h1, h2]
  rw [abs_of_pos (by norm_num), abs_of_neg (by norm_num)]
  norm_num

/-- C2 amended: Navmesh::closest_polygon returns Some only for a polygon
whose 2-D projection contains the point, and among all containing polygons
it returns one minimizing the SIGNED plane distance (the first slab entry
in case of ties); it returns none exactly when no polygon contains the
point. -/
theorem C2_closest_polygon_min_signed (nm : Navmesh) (p : Vec3) :
    (∀ i f, nm.closest_polygon p = some (i, f) →
      (i, f) ∈ nm.polygons.enum ∧ f.contains_point p = true ∧
      ∀ j g, (j, g) ∈ nm.polygons.enum → g.contains_point p = true →
        f.distance_to_plane p ≤ g.distance_to_plane p) ∧
    (nm.closest_polygon p = none ↔
      ∀ j g, (j, g) ∈ nm.polygons.enum → ¬g.contains_point p = true) := by
  constructor
  · intro i f hsome
    unfold Navmesh.closest_polygon at hsome
    simp only [Option.map_eq_some'] at hsome
    obtain ⟨x, hx, hx1⟩ := hsome
    have hmem := Navmesh.minByKeyFirst_mem _ x hx
    have hmin := Navmesh.minByKeyFirst_min _ x hx
    simp only [List.mem_map, List.mem_filter] at hmem
    obtain ⟨v, ⟨hv_enum, hv_keep⟩, hv_eq⟩ := hmem
    have hvx : v = (i, f) := by
      rw [← hx1, ← hv_eq]
    subst hvx
    refine ⟨hv_enum, hv_keep, ?_⟩
    intro j g hj hg
    have hy : ((j, g), g.distance_to_plane p) ∈
        ((nm.polygons.enum.filter fun v => v.2.contains_point p).map
          fun v => (v, v.2.distance_to_plane p)) := by
      simp only [List.mem_map, List.mem_filter]
      exact ⟨(j, g), ⟨hj, hg⟩, rfl⟩
    have := hmin _ hy
    rw [← hv_eq] at this
    exact this
  · unfold Navmesh.closest_polygon
    simp only [Option.map_eq_none']
    rw [Navmesh.minByKeyFirst_eq_none_iff]
    constructor
    · intro hnil j g hj hg
      have : ((j, g), g.distance_to_plane p) ∈
          ((nm.polygons.enum.filter fun v => v.2.contains_point p).map
            fun v => (v, v.2.distance_to_plane p)) := by
        simp only [List.mem_map, List.mem_filter]
        exact ⟨(j, g), ⟨hj, hg⟩, rfl⟩
      rw [hnil] at this
      simp at this
    · intro hnone
      rw [List.map_eq_nil_iff, List.filter_eq_nil_iff]
      intro v hv
      simpa using hnone v.1 v.2 (by simpa using hv)

/-- Witness for C2: on the two-triangle navmesh the amended theorem
applies at the returned polygon faceHigh, which contains the point and
whose signed distance is at most faceLow's. -/
theorem C2_witness :
    faceHigh.contains_point ⟨1 / 4, 1 / 10, 1 / 4⟩ = true ∧
    faceHigh.distance_to_plane ⟨1 / 4, 1 / 10, 1 / 4⟩ ≤
      faceLow.distance_to_plane ⟨1 / 4, 1 / 10, 1 / 4⟩ :=
  ⟨((C2_closest_polygon_min_signed nmTwo ⟨1 / 4, 1 / 10, 1 / 4⟩).1 0 faceHigh
      (by decide)).2.1,
    ((C2_closest_polygon_min_signed nmTwo ⟨1 / 4, 1 / 10, 1 / 4⟩).1 0 faceHigh
      (by decide)).2.2 1 faceLow (by decide) (by decide)⟩

theorem plLookup_plPush (m : List (ℕ × List ℕ)) (k v k' : ℕ) :
    plLookup (plPush m k v) k' =
      if k' = k then plLookup m k' ++ [v] else plLookup m k' := by
  induction m with
  | nil =>
    simp only [plPush, plLookup]
    by_cases h : k' = k <;> simp [h]
  | cons a rest ih =>
    obtain ⟨b, vs⟩ := a
    simp only [plPush]
    by_cases hkb : k = b
    · subst hkb
      simp only [if_pos rfl, plLookup]
      by_cases hk' : k' = k <;> simp [hk']
    · rw [if_neg hkb]
      simp only [plLookup]
      by_cases hk'b : k' = b
      · subst hk'b
        rw [if_pos rfl, if_pos rfl, if_neg (fun h => hkb h.symm)]
      · rw [if_neg hk'b, if_neg hk'b, ih]

/-- The bookkeeping invariant of the create_link fold: every id indexed
under a polygon points back to a stored link leaving that polygon, the
arena length is even, and every even slot is followed by its reverse, with
both ids indexed under the respective endpoint polygons. -/
def LinkInv (st : LinkState) : Prop :=
  (∀ p i, i ∈ plLookup st.pl p →
    ∃ l, st.links.get? i = some l ∧ l.fromId = p) ∧
  st.links.length % 2 = 0 ∧
  (∀ k l, st.links.get? (2 * k) = some l →
    st.links.get? (2 * k + 1) = some l.reverse ∧
    2 * k ∈ plLookup st.pl l.fromId ∧
    2 * k + 1 ∈ plLookup st.pl l.toId)

theorem linkInv_empty : LinkInv ⟨[], []⟩ := by
  refine ⟨?_, rfl, ?_⟩
  · intro p i hi
    simp [plLookup] at hi
  · intro k l hl
    simp [List.get?] at hl

theorem plMemExtended {x : ℕ} {X : List ℕ} (hx : x ∈ X) (c1 c2 : Prop)
    [Decidable c1] [Decidable c2] (n1 n2 : ℕ) :
    x ∈ (if c1 then (if c2 then X ++ [n1] else X) ++ [n2]
      else if c2 then X ++ [n1] else X) := by
  split_ifs <;> simp [hx]

theorem linkInv_createLink (st : LinkState) (l : NavmeshLink)
    (h : LinkInv st) : LinkInv (createLink st l) := by
  obtain ⟨hback, heven, hpair⟩ := h
  set n := st.links.length with hn
  have hlinks : (createLink st l).links = (st.links ++ [l]) ++ [l.reverse] := by
    simp [createLink]
  have hpl : (createLink st l).pl =
      plPush (plPush st.pl l.fromId n) l.toId (n + 1) := by
    simp [createLink]
  have hlen : (createLink st l).links.length = n + 2 := by
    rw [hlinks]
    simp [hn]
  have hget_lt : ∀ i, i < n → (createLink st l).links.get? i = st.links.get? i := by
    intro i hi
    rw [hlinks, List.get?_append (by simp; omega), List.get?_append hi]
  have hget_n : (createLink st l).links.get? n = some l := by
    rw [hlinks, List.get?_append (by simp)]
    exact List.get?_concat_length st.links l
  have hget_n1 : (createLink st l).links.get? (n + 1) = some l.reverse := by
    rw [hlinks]
    have : (st.links ++ [l]).length = n + 1 := by simp
    rw [← this]
    exact List.get?_concat_length _ _
  have hlook : ∀ p, plLookup (createLink st l).pl p =
      (if p = l.toId then
        (if p = l.fromId then plLookup st.pl p ++ [n] else plLookup st.pl p) ++ [n + 1]
      else
        (if p = l.fromId then plLookup st.pl p ++ [n] else plLookup st.pl p)) := by
    intro p
    rw [hpl, plLookup_plPush, plLookup_plPush]
  refine ⟨?_, ?_, ?_⟩
  · intro p i hi
    rw [hlook] at hi
    have hcases : i ∈ plLookup st.pl p ∨ (i = n ∧ p = l.fromId) ∨
        (i = n + 1 ∧ p = l.toId) := by
      by_cases h1 : p = l.toId
      · by_cases h2 : p = l.fromId
        · rw [if_pos h1, if_pos h2] at hi
          rcases List.mem_append.1 hi with hi | hi
          · rcases List.mem_append.1 hi with hi | hi
            · exact Or.inl hi
            · exact Or.inr (Or.inl ⟨List.mem_singleton.1 hi, h2⟩)
          · exact Or.inr (Or.inr ⟨List.mem_singleton.1 hi, h1⟩)
        · rw [if_pos h1, if_neg h2] at hi
          rcases List.mem_append.1 hi with hi | hi
          · exact Or.inl hi
          · exact Or.inr (Or.inr ⟨List.mem_singleton.1 hi, h1⟩)
      · by_cases h2 : p = l.fromId
        · rw [if_neg h1, if_pos h2] at hi
          rcases List.mem_append.1 hi with hi | hi
          · exact Or.inl hi
          · exact Or.inr (Or.inl ⟨List.mem_singleton.1 hi, h2⟩)
        · rw [if_neg h1, if_neg h2] at hi
          exact Or.inl hi
    rcases hcases with hi | ⟨rfl, rfl⟩ | ⟨rfl, rfl⟩
    · obtain ⟨l0, hl0, hfrom⟩ := hback p i hi
      have hilt : i < n := by
        obtain ⟨hlt, _⟩ := List.get?_eq_some.1 hl0
        simpa [hn] using hlt
      exact ⟨l0, by rw [hget_lt i hilt]; exact hl0, hfrom⟩
    · exact ⟨l, hget_n, rfl⟩
    · exact ⟨l.reverse, hget_n1, rfl⟩
  · rw [hlen]
    omega
  · intro k l0 hl0
    rcases lt_trichotomy (2 * k) n with hlt | heq | hgt
    · have hk1 : 2 * k + 1 < n := by omega
      rw [hget_lt _ hlt] at hl0
      obtain ⟨hrev, hmem1, hmem2⟩ := hpair k l0 hl0
      refine ⟨by rw [hget_lt _ hk1]; exact hrev, ?_, ?_⟩
      · rw [hlook]
        exact plMemExtended hmem1 _ _ _ _
      · rw [hlook]
        exact plMemExtended hmem2 _ _ _ _
    · rw [← heq] at hget_n hget_n1
      rw [hget_n] at hl0
      obtain rfl : l = l0 := by injection hl0
      refine ⟨hget_n1, ?_, ?_⟩
      · rw [hlook]
        by_cases h1 : l.fromId = l.toId <;> simp [h1, heq]
      · rw [hlook]
        simp [heq]
    · have : (createLink st l).links.length ≤ 2 * k := by
        rw [hlen]
        omega
      rw [List.get?_eq_none.2 this] at hl0
      exact absurd hl0 (by simp)

theorem linkInv_foldl (cands : List NavmeshLink) :
    ∀ st, LinkInv st → LinkInv (cands.foldl createLink st) := by
  induction cands with
  | nil => intro st h; exact h
  | cons c rest ih =>
    intro st h
    exact ih (createLink st c) (linkInv_createLink st c h)

theorem linkInv_linkStateFor (trig : Trig) (settings : NavmeshSettings)
    (polygons : List Face) : LinkInv (linkStateFor trig settings polygons) :=
  linkInv_foldl _ _ linkInv_empty

/-- C3: links exist in forward/reverse pairs in every navmesh whose link
arenas were produced by Navmesh::generate_links (as every navmesh returned
by Navmesh::new is, generate_links being its final step): each create_link
call stores the forward link at an even id 2k indexed under its from
polygon, and its reverse (from/to and the two StepUp edges swapped) at
2k + 1 indexed under its to polygon.  Confirmed, for every choice of the
transcendental parameters. -/
theorem C3_links_stored_in_reverse_pairs (trig : Trig) (nm : Navmesh)
    (k : ℕ) (l : NavmeshLink)
    (h : (nm.generate_links trig).links.get? (2 * k) = some l) :
    (nm.generate_links trig).links.get? (2 * k + 1) = some l.reverse ∧
    2 * k ∈ plLookup (nm.generate_links trig).polygon_links l.fromId ∧
    2 * k + 1 ∈ plLookup (nm.generate_links trig).polygon_links l.toId :=
  (linkInv_linkStateFor trig nm.settings nm.polygons).2.2 k l h

/-- Transcendental stub used by the concrete link-generation witnesses:
the bucket keys collapse under it, which only merges buckets and never
affects the pairing invariants. -/
def trig0 : Trig := ⟨fun _ _ => 0, 0⟩

/-- Two triangles sharing the vertical wall x = 1 between z = -1 and
z = 1, at the same height, so that generate_links creates one Walk link. -/
def polyA : Face := ⟨⟨1, 0, 1⟩, ⟨1, 0, -1⟩, ⟨0, 0, 0⟩⟩

def polyB : Face := ⟨⟨1, 0, -1⟩, ⟨1, 0, 1⟩, ⟨2, 0, 0⟩⟩

def nmW : Navmesh := ⟨[polyA, polyB], [], [], NavmeshSettings.new⟩

/-- The one forward link generate_links creates on nmW. -/
def lW : NavmeshLink := ⟨0, 1, LinkKind.Walk ⟨⟨1, 0, -1⟩, ⟨1, 0, 1⟩⟩⟩

/-- Witness for C3: on the two-triangle navmesh the forward Walk link sits
at id 0, its reverse at id 1, indexed under polygons 0 and 1. -/
theorem C3_witness :
    (nmW.generate_links trig0).links.get? (2 * 0) = some lW ∧
    ((nmW.generate_links trig0).links.get? (2 * 0 + 1) = some lW.reverse ∧
      2 * 0 ∈ plLookup (nmW.generate_links trig0).polygon_links lW.fromId ∧
      2 * 0 + 1 ∈ plLookup (nmW.generate_links trig0).polygon_links lW.toId) :=
  ⟨by decide, C3_links_stored_in_reverse_pairs trig0 nmW 0 lW (by decide)⟩

/-- C9: in every navmesh whose link arenas were produced by
Navmesh::generate_links (as every navmesh returned by Navmesh::new is),
every link id stored under a polygon p refers to a stored link with
from() = p; consequently the assertion assert_eq!(link.from(),
current.node) in astar's expansion loop, which reads exactly these lists,
never fails.  Confirmed. -/
theorem C9_polygon_links_point_back (trig : Trig) (nm : Navmesh) (p i : ℕ)
    (h : i ∈ plLookup (nm.generate_links trig).polygon_links p) :
    ∃ l, (nm.generate_links trig).links.get? i = some l ∧ l.fromId = p :=
  (linkInv_linkStateFor trig nm.settings nm.polygons).1 p i h

/-- Witness for C9: id 1 is indexed under polygon 1 on the concrete
navmesh, and the stored link leaves polygon 1. -/
theorem C9_witness :
    1 ∈ plLookup (nmW.generate_links trig0).polygon_links 1 ∧
    ∃ l, (nmW.generate_links trig0).links.get? 1 = some l ∧ l.fromId = 1 :=
  ⟨by decide, C9_polygon_links_point_back trig0 nmW 1 1 (by decide)⟩

/-- C10: Navmesh::generate_links is idempotent: it clears both arenas and
rebuilds them purely from the polygon slab and the settings, which it
leaves untouched, so a second run reproduces exactly the same link entries
at the same ids and the same per-polygon id lists.  Confirmed, for every
choice of the transcendental parameters. -/
theorem C10_generate_links_idempotent (trig : Trig) (nm : Navmesh) :
    (nm.generate_links trig).generate_links trig = nm.generate_links trig := by
  cases nm
  rfl

/-- Polygon containing the A-star start point (0,0,0). -/
def poly70 : Face := ⟨⟨-1, 0, -2⟩, ⟨-1, 0, 2⟩, ⟨2, 0, 0⟩⟩

/-- Intermediate polygon (its position never queried). -/
def poly71 : Face := ⟨⟨100, 0, 100⟩, ⟨100, 0, 101⟩, ⟨101, 0, 100⟩⟩

/-- Polygon containing the A-star end point (4,0,0). -/
def poly72 : Face := ⟨⟨3, 0, -2⟩, ⟨3, 0, 2⟩, ⟨6, 0, 0⟩⟩

/-- Portal edge between polygons 0 and 1: the wall x = 1, z in [-1, 1]. -/
def edge701 : Edge3D := ⟨⟨1, 0, -1⟩, ⟨1, 0, 1⟩⟩

/-- Portal edge between polygons 1 and 2: the wall x = 1/2, z in [0, 1],
which lies behind polygon 1's crossing point so the search falls back to
its midpoint. -/
def edge712 : Edge3D := ⟨⟨1 / 2, 0, 0⟩, ⟨1 / 2, 0, 1⟩⟩

/-- A chain navmesh 0 - 1 - 2 with forward/reverse link pairs laid out as
generate_links stores them. -/
def nm7 : Navmesh :=
  ⟨[poly70, poly71, poly72],
    [(0, [0]), (1, [1, 2]), (2, [3])],
    [⟨0, 1, LinkKind.Walk edge701⟩, ⟨1, 0, LinkKind.Walk edge701⟩,
      ⟨1, 2, LinkKind.Walk edge712⟩, ⟨2, 1, LinkKind.Walk edge712⟩],
    NavmeshSettings.new⟩

/-- The raw path astar reconstructs on nm7 from (0,0,0) to (4,0,0) under
the zero heuristic, before shortening. -/
def path7 : List Waypoint :=
  [⟨0, none, ⟨0, 0, 0⟩⟩, ⟨1, some 0, ⟨1, 0, 0⟩⟩,
    ⟨2, some 2, ⟨1 / 2, 0, 1 / 2⟩⟩, ⟨2, none, ⟨4, 0, 0⟩⟩]

/-- The same path after shorten: the first pass recomputes waypoint 1
against the ray from the start towards waypoint 2, whose clipped portal
intersection clamps to the far corner (1,0,1), and the second pass changes
nothing. -/
def path7s : List Waypoint :=
  [⟨0, none, ⟨0, 0, 0⟩⟩, ⟨1, some 0, ⟨1, 0, 1⟩⟩,
    ⟨2, some 2, ⟨1 / 2, 0, 1 / 2⟩⟩, ⟨2, none, ⟨4, 0, 0⟩⟩]

/-- C7 counterexample: a waypoint path genuinely passed to the shortening
step inside astar (the raw reconstructed path of this search) whose total
polyline length strictly increases across shorten: the pre-shortening
length is 1 + sqrt(1/2) + sqrt(25/2) and the post-shortening length is
sqrt 2 + sqrt(1/2) + sqrt(25/2).  The claimed inequality (after at most
before) is therefore false. -/
theorem C7_counterexample :
    astarCore nm7 ⟨0, 0, 0⟩ ⟨4, 0, 0⟩ (fun _ _ => 0) = some path7 ∧
    shorten nm7 path7 = path7s ∧
    polylineLength path7 < polylineLength (shorten nm7 path7) := by
  refine ⟨by decide, by decide, ?_⟩
  rw [show shorten nm7 path7 = path7s from by decide]
  have e1 : Vec3.distSq ⟨0, 0, 0⟩ ⟨1, 0, 0⟩ = 1 := by decide
  have e2 : Vec3.distSq ⟨0, 0, 0⟩ ⟨1, 0, 1⟩ = 2 := by decide
  have e3 : Vec3.distSq ⟨1, 0, 0⟩ ⟨1 / 2, 0, 1 / 2⟩ = 1 / 2 := by decide
  have e4 : Vec3.distSq ⟨1, 0, 1⟩ ⟨1 / 2, 0, 1 / 2⟩ = 1 / 2 := by decide
  have e5 : Vec3.distSq ⟨1 / 2, 0, 1 / 2⟩ ⟨4, 0, 0⟩ = 25 / 2 := by decide
  simp only [path7, path7s, polylineLength, distR, e1, e2, e3, e4, e5]
  have hs : Real.sqrt ((1 : ℚ) : ℝ) < Real.sqrt ((2 : ℚ) : ℝ) := by
    apply Real.sqrt_lt_sqrt <;> norm_num
  exact add_lt_add_right hs _

/-- The point at parameter s along a link's destination edge. -/
def onDestEdge (nm : Navmesh) (eid : ℕ) (s : ℚ) : Vec3 :=
  (nm.linkAt eid).destination_edge.p1 +
    s • ((nm.linkAt eid).destination_edge.p2 - (nm.linkAt eid).destination_edge.p1)

/-- How shorten may change one waypoint: the polygon and link are kept,
and the point either stays or moves onto the closed destination-edge
segment of the waypoint's own link. -/
def WaypointMoved (nm : Navmesh) (w0 w1 : Waypoint) : Prop :=
  w1.target_polygon = w0.target_polygon ∧ w1.edge = w0.edge ∧
  (w1.point = w0.point ∨
    ∃ eid s, w0.edge = some eid ∧ 0 ≤ s ∧ s ≤ 1 ∧ w1.point = onDestEdge nm eid s)

/-- Pointwise waypoint movement between two equal-length paths. -/
def PathRel (nm : Navmesh) (p q : List Waypoint) : Prop :=
  p.length = q.length ∧
  ∀ i w0 w1, p.get? i = some w0 → q.get? i = some w1 → WaypointMoved nm w0 w1

theorem waypointMoved_refl (nm : Navmesh) (w : Waypoint) :
    WaypointMoved nm w w := ⟨rfl, rfl, Or.inl rfl⟩

theorem waypointMoved_trans {nm : Navmesh} {w0 w1 w2 : Waypoint}
    (h1 : WaypointMoved nm w0 w1) (h2 : WaypointMoved nm w1 w2) :
    WaypointMoved nm w0 w2 := by
  obtain ⟨ht1, he1, hp1⟩ := h1
  obtain ⟨ht2, he2, hp2⟩ := h2
  refine ⟨ht2.trans ht1, he2.trans he1, ?_⟩
  rcases hp2 with hp2 | ⟨eid, s, heid, hs0, hs1, hpt⟩
  · rcases hp1 with hp1 | ⟨eid, s, heid, hs0, hs1, hpt⟩
    · exact Or.inl (hp2.trans hp1)
    · exact Or.inr ⟨eid, s, heid, hs0, hs1, hp2.trans hpt⟩
  · exact Or.inr ⟨eid, s, he1.symm.trans heid, hs0, hs1, hpt⟩

theorem pathRel_refl (nm : Navmesh) (p : List Waypoint) : PathRel nm p p := by
  refine ⟨rfl, ?_⟩
  intro i w0 w1 h0 h1
  rw [h0, Option.some_inj] at h1
  exact h1 ▸ waypointMoved_refl nm w0

theorem pathRel_trans {nm : Navmesh} {p q r : List Waypoint}
    (h1 : PathRel nm p q) (h2 : PathRel nm q r) : PathRel nm p r := by
  obtain ⟨hl1, hw1⟩ := h1
  obtain ⟨hl2, hw2⟩ := h2
  refine ⟨hl1.trans hl2, ?_⟩
  intro i w0 w2 hp hr
  have hi : i < q.length := by
    obtain ⟨hlt, _⟩ := List.get?_eq_some.1 hp
    rw [hl1] at hlt
    exact hlt
  have hq : q.get? i = some (q.get ⟨i, hi⟩) := List.get?_eq_get hi
  exact waypointMoved_trans (hw1 i _ _ hp hq) (hw2 i _ _ hq hr)

theorem pathRel_set {nm : Navmesh} {path : List Waypoint} {j : ℕ}
    {b w : Waypoint} (hb : path.get? j = some b) (hmv : WaypointMoved nm b w) :
    PathRel nm path (path.set j w) := by
  refine ⟨(List.length_set path j w).symm, ?_⟩
  intro i w0 w1 h0 h1
  by_cases hij : i = j
  · subst hij
    rw [hb, Option.some_inj] at h0
    rw [List.get?_set_eq, hb, Option.map_some] at h1
    rw [Option.some_inj] at h1
    rw [← h0, ← h1]
    exact hmv
  · rw [List.get?_set_ne _ _ (fun h => hij h.symm), h0, Option.some_inj] at h1
    exact h1 ▸ waypointMoved_refl nm w0

theorem shortenIdx_rel (nm : Navmesh) (path : List Waypoint) (j : ℕ) :
    PathRel nm path (shortenIdx nm path j).1 := by
  unfold shortenIdx
  split
  · rename_i a b c ha hb hc
    split
    · exact pathRel_refl nm path
    · rename_i eid heid
      dsimp only
      split
      · exact pathRel_refl nm path
      · rename_i p hint
        split
        · obtain ⟨s, hs0, hs1, hp⟩ :=
            intersect_ray_clipped_on_segment _ _ _ _ hint
          exact pathRel_set hb
            ⟨rfl, rfl, Or.inr ⟨eid, s, heid, hs0, hs1, hp⟩⟩
        · exact pathRel_refl nm path
  · exact pathRel_refl nm path

theorem foldlPass_rel (nm : Navmesh) (idxs : List ℕ) :
    ∀ (p0 : List Waypoint) (st : List Waypoint × ℕ), PathRel nm p0 st.1 →
      PathRel nm p0 ((idxs.foldl (fun st i =>
        let next := shortenIdx nm st.1 i
        (next.1, st.2 + if next.2 then 1 else 0)) st)).1 := by
  induction idxs with
  | nil => intro p0 st h; exact h
  | cons i rest ih =>
    intro p0 st h
    exact ih p0 _ (pathRel_trans h (shortenIdx_rel nm st.1 i))

theorem shortenPass_rel (nm : Navmesh) (path : List Waypoint) :
    PathRel nm path (shortenPass nm path).1 := by
  unfold shortenPass
  exact foldlPass_rel nm (List.range path.length) path (path, 0)
    (pathRel_refl nm path)

theorem shortenLoop_rel (nm : Navmesh) :
    ∀ fuel path, PathRel nm path (shortenLoop nm fuel path) := by
  intro fuel
  induction fuel with
  | zero => intro path; exact pathRel_refl nm path
  | succ n ih =>
    intro path
    unfold shortenLoop
    dsimp only
    split
    · exact shortenPass_rel nm path
    · exact pathRel_trans (shortenPass_rel nm path) (ih (shortenPass nm path).1)

/-- C7 amended: the funnel shortening step inside astar preserves each
waypoint's polygon and link, and only ever moves a waypoint's point onto
the closed destination-edge segment of that waypoint's own link; the total
polyline length is NOT guaranteed to decrease (it strictly increases on
the counterexample run). -/
theorem C7_shorten_moves_points_onto_portal_edges (nm : Navmesh)
    (path : List Waypoint) (i : ℕ) (w0 w1 : Waypoint)
    (h0 : path.get? i = some w0) (h1 : (shorten nm path).get? i = some w1) :
    w1.target_polygon = w0.target_polygon ∧ w1.edge = w0.edge ∧
    (w1.point = w0.point ∨
      ∃ eid s, w0.edge = some eid ∧ 0 ≤ s ∧ s ≤ 1 ∧
        w1.point = onDestEdge nm eid s) :=
  (shortenLoop_rel nm 100 path).2 i w0 w1 h0 h1

/-- Witness for C7: on the counterexample run the shortened waypoint 1
keeps its polygon and link and sits on its portal edge. -/
theorem C7_witness :
    path7.get? 1 = some ⟨1, some 0, ⟨1, 0, 0⟩⟩ ∧
    (shorten nm7 path7).get? 1 = some ⟨1, some 0, ⟨1, 0, 1⟩⟩ ∧
    ((⟨1, some 0, ⟨1, 0, 1⟩⟩ : Waypoint).target_polygon =
        (⟨1, some 0, ⟨1, 0, 0⟩⟩ : Waypoint).target_polygon ∧
      (⟨1, some 0, ⟨1, 0, 1⟩⟩ : Waypoint).edge =
        (⟨1, some 0, ⟨1, 0, 0⟩⟩ : Waypoint).edge ∧
      ((⟨1, some 0, ⟨1, 0, 1⟩⟩ : Waypoint).point =
          (⟨1, some 0, ⟨1, 0, 0⟩⟩ : Waypoint).point ∨
        ∃ eid s, (⟨1, some 0, ⟨1, 0, 0⟩⟩ : Waypoint).edge = some eid ∧
          0 ≤ s ∧ s ≤ 1 ∧
          (⟨1, some 0, ⟨1, 0, 1⟩⟩ : Waypoint).point = onDestEdge nm7 eid s)) :=
  ⟨by decide, by decide,
    C7_shorten_moves_points_onto_portal_edges nm7 path7 1
      ⟨1, some 0, ⟨1, 0, 0⟩⟩ ⟨1, some 0, ⟨1, 0, 1⟩⟩ (by decide) (by decide)⟩

end Constructive
